import Mathlib

/-!
Verification of the rag-test-suite orchestration flow.

Shallow embedding of the repository's core: the domain model
(`src/rag_test_suite/models.py`), the category aggregator
(`src/rag_test_suite/crews/evaluation/crew.py`), the evaluator tool's
JSON repair and fallback logic (`src/crewai_test_suite/tools/evaluator.py`),
the flow's phase routing, CSV pipeline and execution loop
(`src/rag_test_suite/flow.py`).  Machine floats are modelled as rationals;
the external LLM / HTTP collaborators are parameters of the functions that
call them.
-/

namespace RagTestSuite

/-- ASCII lower-casing of one character (Python `str.lower` restricted to
ASCII, which covers every string the flow compares after lowering). -/
def lowerChar (c : Char) : Char :=
  if 'A' ≤ c ∧ c ≤ 'Z' then Char.ofNat (c.toNat + 32) else c

/-- Python `s.lower()` (ASCII). -/
def pyLower (s : String) : String :=
  String.mk (s.data.map lowerChar)

/-- Python slicing `s[:n]` (character count, like Python's code points). -/
def pyTake (s : String) (n : ℕ) : String :=
  String.mk (s.data.take n)

/-- Python whitespace as used by `str.strip` / regex `\s` (ASCII set). -/
def isPyWs (c : Char) : Bool :=
  c = ' ' ∨ c = '\t' ∨ c = '\n' ∨ c = '\r' ∨ c = Char.ofNat 11 ∨ c = Char.ofNat 12

/-- Python `s.strip()`. -/
def pyStrip (s : String) : String :=
  String.mk (((s.data.dropWhile isPyWs).reverse.dropWhile isPyWs).reverse)

/-- Python `s.rstrip()`. -/
def pyRstrip (s : String) : String :=
  String.mk ((s.data.reverse.dropWhile isPyWs).reverse)

/-- Python `s.count(c)` for a single character. -/
def countChar (s : String) (c : Char) : ℕ :=
  s.data.count c

/-- Python `s.startswith(pat)`. -/
def pyStartsWith (s pat : String) : Bool :=
  pat.data.isPrefixOf s.data

/-- Python `s.endswith(pat)`. -/
def pyEndsWith (s pat : String) : Bool :=
  pat.data.isSuffixOf s.data

/-- Split a character list at the first occurrence of `pat`:
`some (before, after)`, or `none` when `pat` does not occur. -/
def splitFirstList (pat : List Char) : List Char → Option (List Char × List Char)
  | [] => if pat.isPrefixOf [] then some ([], []) else none
  | c :: cs =>
    if pat.isPrefixOf (c :: cs) then some ([], (c :: cs).drop pat.length)
    else (splitFirstList pat cs).map (fun p => (c :: p.1, p.2))

/-- Python `pat in s`. -/
def strContainsSub (s pat : String) : Bool :=
  (splitFirstList pat.data s.data).isSome

/-- Python `s.split(pat)[0]` (text before the first occurrence; the whole
string when `pat` does not occur). -/
def pySplitFirst (s pat : String) : String :=
  match splitFirstList pat.data s.data with
  | none => s
  | some (before, _) => String.mk before

/-- Python `s.split(pat)[1]` (text between the first and second occurrence
of `pat`, or all text after the only occurrence). Call sites guard with
`pat in s` first, so the no-occurrence case is unreachable there. -/
def pySplitSecond (s pat : String) : String :=
  match splitFirstList pat.data s.data with
  | none => s
  | some (_, after) =>
    match splitFirstList pat.data after with
    | none => String.mk after
    | some (between, _) => String.mk between

/-- Model of `TestCategory` from models.py: the five test-case categories. -/
inductive TestCategory where
  | factual | reasoning | edge_case | out_of_scope | ambiguous
deriving DecidableEq, Repr

/-- Model of the `TestCategory(value)` enum lookup: `some` on a recognized value string,
`none` models the `ValueError` raised by Python on anything else. -/
def TestCategory.ofString : String → Option TestCategory
  | "factual" => some .factual
  | "reasoning" => some .reasoning
  | "edge_case" => some .edge_case
  | "out_of_scope" => some .out_of_scope
  | "ambiguous" => some .ambiguous
  | _ => none

/-- Model of `TestDifficulty` from models.py. -/
inductive TestDifficulty where
  | easy | medium | hard
deriving DecidableEq, Repr

/-- Model of the `TestDifficulty(value)` enum lookup (`none` = `ValueError`). -/
def TestDifficulty.ofString : String → Option TestDifficulty
  | "easy" => some .easy
  | "medium" => some .medium
  | "hard" => some .hard
  | _ => none

/-- Model of `TestCase` from models.py. -/
structure TestCase where
  id : String
  question : String
  expected_answer : String
  category : TestCategory
  difficulty : TestDifficulty
  rationale : String
deriving DecidableEq, Repr

/-- Model of `TestResult` from models.py; `similarity_score` (a Python float
constrained to [0,1] by pydantic) is modelled as a rational. -/
structure TestResult where
  test_case : TestCase
  actual_answer : String
  passed : Bool
  similarity_score : ℚ
  evaluation_rationale : String
  retry_count : ℕ := 0
  execution_time_ms : ℕ := 0
  error : Option String := none
deriving DecidableEq, Repr

/-- Model of `CategoryScore` from models.py. -/
structure CategoryScore where
  category : TestCategory
  total : ℕ := 0
  passed : ℕ := 0
  pass_rate : ℚ := 0
  common_issues : List String := []
deriving DecidableEq, Repr

/-!
## Category aggregator
`calculate_category_scores` in crews/evaluation/crew.py (lines 100-128).
The Python `category_stats` dict (keys in insertion order, which for a
Python dict is first-encounter order) is embedded as an association list
whose entries stay in first-insertion order.
-/

/-- The per-category accumulator `{"total": ..., "passed": ..., "issues": [...]}`. -/
structure CatStats where
  total : ℕ
  passed : ℕ
  issues : List String
deriving DecidableEq, Repr

/-- One loop iteration body of `calculate_category_scores` applied to the
entry for the result's category: `total += 1`; `passed += 1` when passed,
otherwise `issues.append(rationale[:100])`. -/
def updateStats (r : TestResult) (st : CatStats) : CatStats :=
  { total := st.total + 1
    passed := st.passed + (if r.passed then 1 else 0)
    issues := st.issues ++ (if r.passed then [] else [pyTake r.evaluation_rationale 100]) }

/-- Insert/update into the (insertion-ordered) stats dict: update the
existing entry for the result's category, or append a fresh entry at the
end (Python dict insertion order). -/
def statsInsert : List (TestCategory × CatStats) → TestResult → List (TestCategory × CatStats)
  | [], r => [(r.test_case.category, updateStats r ⟨0, 0, []⟩)]
  | (c, st) :: rest, r =>
    if c = r.test_case.category then (c, updateStats r st) :: rest
    else (c, st) :: statsInsert rest r

/-- The `category_stats` dict after the first loop of
`calculate_category_scores` over the whole result list. -/
def categoryStats (results : List TestResult) : List (TestCategory × CatStats) :=
  results.foldl statsInsert []

/-- Model of `calculate_category_scores` (crews/evaluation/crew.py lines 100-128):
fold the results into per-category stats, then emit one `CategoryScore`
per stats entry with `pass_rate = passed / total * 100` (0-guarded) and
`common_issues = issues[:3]`. -/
def calculate_category_scores (results : List TestResult) : List CategoryScore :=
  (categoryStats results).map fun p =>
    { category := p.1
      total := p.2.total
      passed := p.2.passed
      pass_rate := if p.2.total > 0 then (p.2.passed : ℚ) / p.2.total * 100 else 0
      common_issues := p.2.issues.take 3 }

/-- Specification-side helper: the distinct elements of a list in
first-encounter order. -/
def firstOccs : List TestCategory → List TestCategory
  | [] => []
  | c :: cs => c :: firstOccs (cs.filter (fun x => x ≠ c))
termination_by l => l.length
decreasing_by
  simpa using Nat.lt_succ_of_le (List.length_filter_le _ _)

/-- Specification-side helper: the stats that the claim predicts for one
category, computed directly from filters of the input list. -/
def specStats (results : List TestResult) (c : TestCategory) : CatStats :=
  let inCat := results.filter (fun r => r.test_case.category = c)
  { total := inCat.length
    passed := (inCat.filter (fun r => r.passed)).length
    issues := (inCat.filter (fun r => ¬ r.passed)).map
      (fun r => pyTake r.evaluation_rationale 100) }

/-- Specification-side helper: the `CategoryScore` the claim predicts for
one category, with the claim's `100 * passed / total` formula. -/
def specScore (results : List TestResult) (c : TestCategory) : CategoryScore :=
  let st := specStats results c
  { category := c
    total := st.total
    passed := st.passed
    pass_rate := if st.total > 0 then 100 * (st.passed : ℚ) / st.total else 0
    common_issues := st.issues.take 3 }

theorem mem_firstOccs {a : TestCategory} : ∀ {l : List TestCategory},
    a ∈ firstOccs l ↔ a ∈ l := by
  intro l
  induction l using firstOccs.induct with
  | case1 => simp [firstOccs]
  | case2 c cs ih =>
    rw [firstOccs]
    simp only [List.mem_cons, ih, List.mem_filter, ne_eq, decide_eq_true_eq]
    constructor
    · rintro (rfl | ⟨h, _⟩)
      · exact Or.inl rfl
      · exact Or.inr h
    · rintro (rfl | h)
      · exact Or.inl rfl
      · by_cases hac : a = c
        · exact Or.inl hac
        · exact Or.inr ⟨h, hac⟩

theorem nodup_firstOccs : ∀ (l : List TestCategory), (firstOccs l).Nodup := by
  intro l
  induction l using firstOccs.induct with
  | case1 => simp [firstOccs]
  | case2 c cs ih =>
    rw [firstOccs]
    refine List.nodup_cons.2 ⟨fun hc => ?_, ih⟩
    have := mem_firstOccs.1 hc
    simp at this

theorem firstOccs_append (l : List TestCategory) (x : TestCategory) :
    firstOccs (l ++ [x]) = if x ∈ l then firstOccs l else firstOccs l ++ [x] := by
  induction l using firstOccs.induct with
  | case1 => simp [firstOccs]
  | case2 c cs ih =>
    show firstOccs (c :: (cs ++ [x])) = _
    rw [firstOccs, firstOccs, List.filter_append]
    by_cases hxc : x = c
    · subst hxc
      simp [List.mem_cons]
    · have hfx : [x].filter (fun y => y ≠ c) = [x] := by
        simp [List.filter, hxc]
      rw [hfx, ih]
      by_cases hx : x ∈ cs.filter (fun y => y ≠ c)
      · have : x ∈ cs := (List.mem_filter.1 hx).1
        simp [hx, this, List.mem_cons, hxc]
      · have : x ∉ cs := fun hmem => hx (List.mem_filter.2 ⟨hmem, by simp [hxc]⟩)
        simp [hx, this, List.mem_cons, hxc]

theorem categoryStats_append (rs : List TestResult) (r : TestResult) :
    categoryStats (rs ++ [r]) = statsInsert (categoryStats rs) r := by
  simp [categoryStats, List.foldl_append]

theorem statsInsert_map (L : List TestCategory) (f : TestCategory → CatStats)
    (r : TestResult) (hnd : L.Nodup) :
    statsInsert (L.map fun c => (c, f c)) r =
      if r.test_case.category ∈ L then
        L.map fun c => (c, if c = r.test_case.category then updateStats r (f c) else f c)
      else (L.map fun c => (c, f c)) ++ [(r.test_case.category, updateStats r ⟨0, 0, []⟩)] := by
  induction L with
  | nil => simp [statsInsert]
  | cons c L ih =>
    have hnd' := (List.nodup_cons.1 hnd).2
    have hc : c ∉ L := (List.nodup_cons.1 hnd).1
    simp only [List.map_cons, statsInsert]
    by_cases hceq : c = r.test_case.category
    · have hmem : r.test_case.category ∈ c :: L := by
        rw [← hceq]; exact List.mem_cons_self c L
      rw [if_pos hceq, if_pos hmem, if_pos hceq]
      congr 1
      refine (List.map_congr_left fun a ha => ?_).symm
      have hane : a ≠ r.test_case.category := fun h => hc ((hceq.trans h.symm) ▸ ha)
      rw [if_neg hane]
    · rw [if_neg hceq, ih hnd']
      by_cases hmem : r.test_case.category ∈ L
      · have hmm : r.test_case.category ∈ c :: L := List.mem_cons_of_mem _ hmem
        rw [if_pos hmem, if_pos hmm, if_neg hceq]
      · have hnm : r.test_case.category ∉ c :: L := by
          intro hx
          rcases List.mem_cons.1 hx with hx | hx
          · exact hceq hx.symm
          · exact hmem hx
        rw [if_neg hmem, if_neg hnm]
        rfl

theorem specStats_append (rs : List TestResult) (r : TestResult) (c : TestCategory) :
    specStats (rs ++ [r]) c =
      if c = r.test_case.category then updateStats r (specStats rs c) else specStats rs c := by
  by_cases h : c = r.test_case.category
  · rw [if_pos h]
    by_cases hp : r.passed <;>
      simp [specStats, updateStats, List.filter_append, List.filter_cons, ← h, hp]
  · have h' : ¬ (r.test_case.category = c) := fun he => h he.symm
    rw [if_neg h]
    simp [specStats, List.filter_append, List.filter_cons, h']

theorem specStats_notMem (rs : List TestResult) (c : TestCategory)
    (h : c ∉ rs.map fun r => r.test_case.category) :
    specStats rs c = ⟨0, 0, []⟩ := by
  have : rs.filter (fun r => r.test_case.category = c) = [] := by
    refine List.filter_eq_nil_iff.2 fun r hr hrc => ?_
    exact h (List.mem_map.2 ⟨r, hr, by simpa using hrc⟩)
  simp [specStats, this]

theorem categoryStats_characterization (rs : List TestResult) :
    categoryStats rs =
      (firstOccs (rs.map fun r => r.test_case.category)).map fun c => (c, specStats rs c) := by
  induction rs using List.reverseRecOn with
  | nil => simp [categoryStats, firstOccs]
  | append_singleton rs r ih =>
    rw [categoryStats_append, ih, List.map_append, List.map_singleton, firstOccs_append]
    rw [statsInsert_map _ _ _ (nodup_firstOccs _)]
    by_cases hmem : r.test_case.category ∈ rs.map fun x => x.test_case.category
    · have hmem' : r.test_case.category ∈ firstOccs (rs.map fun x => x.test_case.category) :=
        mem_firstOccs.2 hmem
      rw [if_pos hmem', if_pos hmem]
      refine List.map_congr_left fun a _ => ?_
      rw [specStats_append]
    · have hmem' : r.test_case.category ∉ firstOccs (rs.map fun x => x.test_case.category) :=
        fun h => hmem (mem_firstOccs.1 h)
      rw [if_neg hmem', if_neg hmem, List.map_append]
      congr 1
      · refine List.map_congr_left fun a ha => ?_
        have haneq : a ≠ r.test_case.category := by
          intro h
          exact hmem' (h ▸ ha)
        rw [specStats_append, if_neg haneq]
      · simp only [List.map_cons, List.map_nil]
        rw [specStats_append, if_pos rfl, specStats_notMem rs _ hmem]

/-- C1. The category aggregator `calculate_category_scores` returns exactly
one `CategoryScore` per distinct category of the input, in first-encounter
order; for each category `total` counts the results of that category,
`passed` counts those marked passed, `pass_rate` is `100 * passed / total`
(0-guarded), and `common_issues` is the first at-most-3 failed rationales
(each truncated to 100 characters) in encounter order; empty input gives
empty output. -/
theorem categoryAggregator_correct (rs : List TestResult) :
    calculate_category_scores rs =
      (firstOccs (rs.map fun r => r.test_case.category)).map (specScore rs) := by
  rw [calculate_category_scores, categoryStats_characterization, List.map_map]
  refine List.map_congr_left fun c _ => ?_
  simp only [Function.comp_apply, specScore, CategoryScore.mk.injEq]
  refine ⟨trivial, trivial, trivial, ?_, trivial⟩
  by_cases h : (specStats rs c).total > 0
  · rw [if_pos h, if_pos h]
    ring
  · rw [if_neg h, if_neg h]

/-!
## Overall pass rate
`_run_evaluation` in flow.py (lines 586-589): `passed = sum(1 for r in
results if r.passed)`, `total = len(results)`,
`pass_rate = (passed / total * 100) if total > 0 else 0`.
-/

/-- The overall pass rate computed by the EVALUATE step. -/
def overallPassRate (results : List TestResult) : ℚ :=
  let passed := (results.filter (fun r => r.passed)).length
  let total := results.length
  if total > 0 then (passed : ℚ) / total * 100 else 0

/-- C7. The EVALUATE step's pass rate is `100 * passed / total` for a
non-empty result list, `0` for the empty list, and always lies in
`[0, 100]`. -/
theorem overallPassRate_spec (rs : List TestResult) :
    (rs = [] → overallPassRate rs = 0) ∧
    (rs ≠ [] → overallPassRate rs =
      100 * ((rs.filter (fun r => r.passed)).length : ℚ) / rs.length) ∧
    0 ≤ overallPassRate rs ∧ overallPassRate rs ≤ 100 := by
  have hle : (rs.filter (fun r => r.passed)).length ≤ rs.length :=
    List.length_filter_le _ _
  refine ⟨fun h => by simp [overallPassRate, h], fun h => ?_, ?_, ?_⟩
  · have hpos : 0 < rs.length := List.length_pos.2 h
    rw [overallPassRate, if_pos hpos]
    ring
  · rw [overallPassRate]
    split
    · positivity
    · exact le_refl 0
  · rw [overallPassRate]
    split
    · rename_i hpos
      have hq : ((rs.filter (fun r => r.passed)).length : ℚ) / rs.length ≤ 1 := by
        rw [div_le_one (by exact_mod_cast hpos)]
        exact_mod_cast hle
      calc ((rs.filter (fun r => r.passed)).length : ℚ) / rs.length * 100
          ≤ 1 * 100 := by nlinarith
        _ = 100 := by norm_num
    · norm_num

/-- A concrete passing test result, used to instantiate witnesses. -/
def sampleResult : TestResult :=
  { test_case := ⟨"T1", "q", "a", .factual, .easy, "because"⟩
    actual_answer := "a"
    passed := true
    similarity_score := 9/10
    evaluation_rationale := "good" }

/-- Witness for C7 at the one-element result list. -/
theorem overallPassRate_spec_witness :
    overallPassRate [sampleResult] =
      100 * (([sampleResult].filter (fun r => r.passed)).length : ℚ) /
        ([sampleResult] : List TestResult).length :=
  (overallPassRate_spec [sampleResult]).2.1 (by simp)

/-!
## Phase routing
The flow's listener/router graph from flow.py: `@start route_by_mode`,
`@router mode_router` (lines 222-228), the listener chains, and the two
exit routers `prompt_exit_router` (lines 360-366) and
`generate_exit_router` (lines 430-436).  Each phase below is one decorated
method; an edge is the (unique) listener/router that fires after it.
-/

/-- The flow's phases (decorated methods of `RAGTestSuiteFlow`). -/
inductive Phase where
  | route_by_mode
  | load_tests_from_csv | execute_csv_tests | evaluate_csv_results | generate_csv_report
  | discover_rag_data | generate_prompt_suggestions
  | check_prompt_only_exit | output_prompt_suggestions
  | generate_test_cases | check_generate_only_exit | output_test_cases
  | execute_tests | evaluate_results | generate_report
deriving DecidableEq, Repr

/-- The phase that fires after a given phase, as a function of
`state.run_mode` (the routers compare `run_mode.lower()` against the mode
literals; listeners fire unconditionally). -/
def nextPhase (mode : String) : Phase → Option Phase
  | .route_by_mode =>
      some (if pyLower mode = "execute_only" then .load_tests_from_csv else .discover_rag_data)
  | .load_tests_from_csv => some .execute_csv_tests
  | .execute_csv_tests => some .evaluate_csv_results
  | .evaluate_csv_results => some .generate_csv_report
  | .generate_csv_report => none
  | .discover_rag_data => some .generate_prompt_suggestions
  | .generate_prompt_suggestions => some .check_prompt_only_exit
  | .check_prompt_only_exit =>
      some (if pyLower mode = "prompt_only" then .output_prompt_suggestions else .generate_test_cases)
  | .output_prompt_suggestions => none
  | .generate_test_cases => some .check_generate_only_exit
  | .check_generate_only_exit =>
      some (if pyLower mode = "generate_only" then .output_test_cases else .execute_tests)
  | .output_test_cases => none
  | .execute_tests => some .evaluate_results
  | .evaluate_results => some .generate_report
  | .generate_report => none

/-- The sequence of phases invoked from a given phase (with fuel). -/
def traceFrom (mode : String) : ℕ → Phase → List Phase
  | 0, p => [p]
  | n + 1, p =>
    p :: (match nextPhase mode p with
          | some q => traceFrom mode n q
          | none => [])

/-- All phases invoked by one run with the given `run_mode` string
(16 steps of fuel exceed the longest chain). -/
def flowTrace (mode : String) : List Phase :=
  traceFrom mode 16 .route_by_mode

theorem flowTrace_execute_only {m : String} (h : pyLower m = "execute_only") :
    flowTrace m = [.route_by_mode, .load_tests_from_csv, .execute_csv_tests,
      .evaluate_csv_results, .generate_csv_report] := by
  simp only [flowTrace, traceFrom, nextPhase, h]
  decide

theorem flowTrace_prompt_only {m : String} (h : pyLower m = "prompt_only") :
    flowTrace m = [.route_by_mode, .discover_rag_data, .generate_prompt_suggestions,
      .check_prompt_only_exit, .output_prompt_suggestions] := by
  simp only [flowTrace, traceFrom, nextPhase, h]
  decide

theorem flowTrace_generate_only {m : String} (h : pyLower m = "generate_only") :
    flowTrace m = [.route_by_mode, .discover_rag_data, .generate_prompt_suggestions,
      .check_prompt_only_exit, .generate_test_cases, .check_generate_only_exit,
      .output_test_cases] := by
  simp only [flowTrace, traceFrom, nextPhase, h]
  decide

/-- C2. Mode routing is deterministic: in `execute_only` the discovery
phase is never invoked; in `prompt_only` discovery and prompt generation
are invoked but neither test generation nor any execution loop; in
`generate_only` discovery, prompt generation and test generation are
invoked but neither execution loop ever runs. -/
theorem modeRouting_deterministic (m : String) :
    (pyLower m = "execute_only" → Phase.discover_rag_data ∉ flowTrace m) ∧
    (pyLower m = "prompt_only" →
      Phase.discover_rag_data ∈ flowTrace m ∧
      Phase.generate_prompt_suggestions ∈ flowTrace m ∧
      Phase.generate_test_cases ∉ flowTrace m ∧
      Phase.execute_tests ∉ flowTrace m ∧
      Phase.execute_csv_tests ∉ flowTrace m) ∧
    (pyLower m = "generate_only" →
      Phase.discover_rag_data ∈ flowTrace m ∧
      Phase.generate_prompt_suggestions ∈ flowTrace m ∧
      Phase.generate_test_cases ∈ flowTrace m ∧
      Phase.execute_tests ∉ flowTrace m ∧
      Phase.execute_csv_tests ∉ flowTrace m) := by
  refine ⟨fun h => ?_, fun h => ?_, fun h => ?_⟩
  · rw [flowTrace_execute_only h]; decide
  · rw [flowTrace_prompt_only h]; decide
  · rw [flowTrace_generate_only h]; decide

/-- Witness for C2 at the three concrete mode strings. -/
theorem modeRouting_deterministic_witness :
    Phase.discover_rag_data ∉ flowTrace "execute_only" ∧
    Phase.generate_test_cases ∉ flowTrace "prompt_only" ∧
    Phase.generate_test_cases ∈ flowTrace "generate_only" :=
  ⟨(modeRouting_deterministic "execute_only").1 (by decide),
   ((modeRouting_deterministic "prompt_only").2.1 (by decide)).2.2.1,
   ((modeRouting_deterministic "generate_only").2.2 (by decide)).2.2.1⟩

/-!
## JSON values and `json.loads`
A shallow model of CPython's strict `json.loads` on the JSON grammar
(numbers as exact rationals — Python floats are modelled as rationals
throughout, so the decimal-to-float rounding is the identity here; the
non-standard `NaN`/`Infinity` extensions are not modelled).
-/

/-- A parsed JSON value.  Objects keep their members in document order;
lookups take the last occurrence of a key, as a Python dict built by
`json.loads` does. -/
inductive JValue where
  | null
  | bool (b : Bool)
  | num (q : ℚ)
  | str (s : String)
  | arr (l : List JValue)
  | obj (l : List (String × JValue))
deriving Repr

/-- Python `dict.get(k)` on a dict built from parsed members
(last occurrence of a duplicate key wins). -/
def jGet (l : List (String × JValue)) (k : String) : Option JValue :=
  l.foldl (fun acc p => if p.1 = k then some p.2 else acc) none

/-- Skip JSON whitespace (space, tab, newline, carriage return). -/
def skipWs : List Char → List Char
  | [] => []
  | c :: cs => if c = ' ' ∨ c = '\t' ∨ c = '\n' ∨ c = '\r' then skipWs cs else c :: cs

/-- Hexadecimal digit value. -/
def hexVal (c : Char) : Option ℕ :=
  if '0' ≤ c ∧ c ≤ '9' then some (c.toNat - '0'.toNat)
  else if 'a' ≤ c ∧ c ≤ 'f' then some (c.toNat - 'a'.toNat + 10)
  else if 'A' ≤ c ∧ c ≤ 'F' then some (c.toNat - 'A'.toNat + 10)
  else none

/-- Match a literal character sequence and drop it. -/
def strLit (pat : List Char) (cs : List Char) : Option (List Char) :=
  if pat.isPrefixOf cs then some (cs.drop pat.length) else none

/-- JSON string body (after the opening quote): content and remainder.
`none` models the `json.JSONDecodeError` for an unterminated string, a bad
escape, or a raw control character. -/
def parseJStr : ℕ → List Char → Option (List Char × List Char)
  | 0, _ => none
  | _, [] => none
  | fuel + 1, c :: cs =>
    if c = '"' then some ([], cs)
    else if c = '\\' then
      match cs with
      | [] => none
      | e :: cs2 =>
        let esc : Option (Char × List Char) :=
          if e = '"' then some ('"', cs2)
          else if e = '\\' then some ('\\', cs2)
          else if e = '/' then some ('/', cs2)
          else if e = 'b' then some (Char.ofNat 8, cs2)
          else if e = 'f' then some (Char.ofNat 12, cs2)
          else if e = 'n' then some ('\n', cs2)
          else if e = 'r' then some ('\r', cs2)
          else if e = 't' then some ('\t', cs2)
          else if e = 'u' then
            match cs2 with
            | a :: b :: c3 :: d :: cs3 =>
              match hexVal a, hexVal b, hexVal c3, hexVal d with
              | some ha, some hb, some hc, some hd =>
                some (Char.ofNat (((ha * 16 + hb) * 16 + hc) * 16 + hd), cs3)
              | _, _, _, _ => none
            | _ => none
          else none
        match esc with
        | none => none
        | some (ch, rest) => (parseJStr fuel rest).map (fun p => (ch :: p.1, p.2))
    else if c.toNat < 32 then none
    else (parseJStr fuel cs).map (fun p => (c :: p.1, p.2))

/-- Digit run to a natural number. -/
def digitsToNat (ds : List Char) : ℕ :=
  ds.foldl (fun n c => n * 10 + (c.toNat - '0'.toNat)) 0

/-- Optional JSON fraction part: `some (fracDigits, rest)`. -/
def parseJFrac : List Char → Option (List Char × List Char)
  | '.' :: t =>
    let p := t.span (fun c => c.isDigit)
    if p.1 = [] then none else some (p.1, p.2)
  | cs => some ([], cs)

/-- Optional JSON exponent part: `some (exponent, rest)`. -/
def parseJExp : List Char → Option (ℤ × List Char)
  | [] => some (0, [])
  | c :: t =>
    if c = 'e' ∨ c = 'E' then
      let st : ℤ × List Char :=
        match t with
        | '+' :: u => (1, u)
        | '-' :: u => (-1, u)
        | _ => (1, t)
      let p := st.2.span (fun c => c.isDigit)
      if p.1 = [] then none else some (st.1 * (digitsToNat p.1 : ℤ), p.2)
    else some (0, c :: t)

/-- JSON number (`-? int frac? exp?`, no leading zeros), as a rational. -/
def parseJNum (cs : List Char) : Option (ℚ × List Char) :=
  let sn : Bool × List Char := match cs with | '-' :: t => (true, t) | _ => (false, cs)
  let ip := sn.2.span (fun c => c.isDigit)
  if ip.1 = [] then none
  else if ip.1.length > 1 ∧ ip.1.head? = some '0' then none
  else
    match parseJFrac ip.2 with
    | none => none
    | some (fds, cs3) =>
      match parseJExp cs3 with
      | none => none
      | some (e, cs4) =>
        let mant : ℚ := (digitsToNat ip.1 : ℚ) + (digitsToNat fds : ℚ) / ((10 : ℚ) ^ fds.length)
        let mag : ℚ := if 0 ≤ e then mant * 10 ^ e.toNat else mant / 10 ^ (-e).toNat
        some ((if sn.1 then -mag else mag), cs4)

mutual

/-- JSON value (fuelled); leading whitespace allowed. -/
def parseJVal : ℕ → List Char → Option (JValue × List Char)
  | 0, _ => none
  | fuel + 1, cs =>
    match skipWs cs with
    | [] => none
    | c :: rest =>
      if c = '{' then
        match skipWs rest with
        | '}' :: r2 => some (.obj [], r2)
        | r1 => (parseJMembers fuel r1).map (fun p => (JValue.obj p.1, p.2))
      else if c = '[' then
        match skipWs rest with
        | ']' :: r2 => some (.arr [], r2)
        | r1 => (parseJElems fuel r1).map (fun p => (JValue.arr p.1, p.2))
      else if c = '"' then
        (parseJStr (fuel + 1) rest).map (fun p => (JValue.str (String.mk p.1), p.2))
      else if c = 't' then (strLit ['r', 'u', 'e'] rest).map (fun r => (JValue.bool true, r))
      else if c = 'f' then (strLit ['a', 'l', 's', 'e'] rest).map (fun r => (JValue.bool false, r))
      else if c = 'n' then (strLit ['u', 'l', 'l'] rest).map (fun r => (JValue.null, r))
      else (parseJNum (c :: rest)).map (fun p => (JValue.num p.1, p.2))

/-- One or more `"key": value` members up to the closing `}`; positioned at
the key's opening quote. -/
def parseJMembers : ℕ → List Char → Option (List (String × JValue) × List Char)
  | 0, _ => none
  | fuel + 1, cs =>
    match cs with
    | '"' :: rest =>
      match parseJStr (fuel + 1) rest with
      | none => none
      | some (key, r1) =>
        match skipWs r1 with
        | ':' :: r2 =>
          match parseJVal fuel r2 with
          | none => none
          | some (v, r3) =>
            match skipWs r3 with
            | ',' :: r4 =>
              (parseJMembers fuel (skipWs r4)).map
                (fun p => ((String.mk key, v) :: p.1, p.2))
            | '}' :: r4 => some ([(String.mk key, v)], r4)
            | _ => none
        | _ => none
    | _ => none

/-- One or more array elements up to the closing `]`. -/
def parseJElems : ℕ → List Char → Option (List JValue × List Char)
  | 0, _ => none
  | fuel + 1, cs =>
    match parseJVal fuel cs with
    | none => none
    | some (v, r1) =>
      match skipWs r1 with
      | ',' :: r2 => (parseJElems fuel r2).map (fun p => (v :: p.1, p.2))
      | ']' :: r2 => some ([v], r2)
      | _ => none

end

/-- Model of `json.loads`: parse one value and require only whitespace after it;
`none` models `json.JSONDecodeError`. -/
def pythonJsonLoads (s : String) : Option JValue :=
  match parseJVal (2 * s.length + 8) s.data with
  | some (v, rest) => if skipWs rest = [] then some v else none
  | none => none

/-!
## Evaluator tool
`EvaluatorTool` in crewai_test_suite/tools/evaluator.py.  The HTTP judge
call itself is external; `_call_llm`'s handling of the returned `content`
(lines 156-220) and `_run`'s exception fallback (lines 52-63) are embedded.
Internal Python exceptions that the code does not catch inside `_call_llm`
(TypeError from `float(...)` on null/list/dict, AttributeError from
`.get` on a non-dict) are modelled as `Except.error` and land in `_run`'s
blanket handler.
-/

/-- Fence extraction of `_call_llm` (lines 159-175): strip, then cut out a
```` ```json ```` block, else a generic ```` ``` ```` block, then strip. -/
def fenceExtract (content : String) : String :=
  let js := pyStrip content
  let js :=
    if strContainsSub js "```json" then
      let seg := pySplitSecond js "```json"
      if strContainsSub seg "```" then pySplitFirst seg "```" else seg
    else if strContainsSub js "```" then
      let seg := pySplitSecond js "```"
      if strContainsSub seg "```" then pySplitFirst seg "```" else seg
    else js
  pyStrip js

/-- Truncation repair of `_call_llm` (lines 177-188): append the brace
deficit when the payload starts with `{` but does not end with `}`; then,
when a `"rationale":` key is present, the payload still does not end with
`}` and the quote count is odd, append `"}`. -/
def repairTruncated (js : String) : String :=
  let js :=
    if pyStartsWith js "\x7b" && !pyEndsWith js "\x7d" then
      let openBraces : ℤ := (countChar js '{' : ℤ) - (countChar js '}' : ℤ)
      pyRstrip js ++ String.mk (List.replicate openBraces.toNat '}')
    else js
  if strContainsSub js "\"rationale\":" && !pyEndsWith (pyRstrip js) "\x7d" then
    if countChar js '"' % 2 ≠ 0 then pyRstrip js ++ "\"\x7d" else js
  else js

/-- The JSON string `_call_llm` hands to `json.loads` for a given judge
`content`. -/
def evalJsonStr (content : String) : String :=
  repairTruncated (fenceExtract content)

/-- Result of Python's `float(x)`: value, `ValueError`, or `TypeError`. -/
inductive PyFloatRes where
  | ok (q : ℚ)
  | valueErr
  | typeErr

/-- Python `float(s)` on a string: optional surrounding whitespace, sign,
and a finite decimal literal (`inf`/`nan` and digit underscores are not
modelled). -/
def parsePyFloat (s : String) : Option ℚ :=
  let cs := (s.data.dropWhile isPyWs).reverse.dropWhile isPyWs |>.reverse
  let sn : Bool × List Char :=
    match cs with
    | '-' :: t => (true, t)
    | '+' :: t => (false, t)
    | _ => (false, cs)
  let ip := sn.2.span (fun c => c.isDigit)
  let rest := ip.2
  let frac : Option (List Char × List Char) :=
    match rest with
    | '.' :: t =>
      let p := t.span (fun c => c.isDigit)
      if ip.1 = [] ∧ p.1 = [] then none else some (p.1, p.2)
    | _ => if ip.1 = [] then none else some ([], rest)
  match frac with
  | none => none
  | some (fds, rest2) =>
    let ex : Option (ℤ × List Char) :=
      match rest2 with
      | [] => some (0, [])
      | c :: t =>
        if c = 'e' ∨ c = 'E' then
          let st : ℤ × List Char :=
            match t with
            | '+' :: u => (1, u)
            | '-' :: u => (-1, u)
            | _ => (1, t)
          let p := st.2.span (fun c => c.isDigit)
          if p.1 = [] then none else some (st.1 * (digitsToNat p.1 : ℤ), p.2)
        else none
    match ex with
    | none => none
    | some (e, rest3) =>
      if rest3 ≠ [] then none
      else
        let mant : ℚ := (digitsToNat ip.1 : ℚ) + (digitsToNat fds : ℚ) / ((10 : ℚ) ^ fds.length)
        let mag : ℚ := if 0 ≤ e then mant * 10 ^ e.toNat else mant / 10 ^ (-e).toNat
        some (if sn.1 then -mag else mag)

/-- Python `float(x)` on a JSON value (`float(True) = 1.0`;
null/list/dict raise `TypeError`). -/
def pyFloat : JValue → PyFloatRes
  | .num q => .ok q
  | .bool b => .ok (if b then 1 else 0)
  | .str s => match parsePyFloat s with | some q => .ok q | none => .valueErr
  | .null => .typeErr
  | .arr _ => .typeErr
  | .obj _ => .typeErr

/-- Try to match `re.search(r'"score"\s*:\s*([\d.]+)', content)` at the
head of `cs`; returns the captured `[\d.]+` run. -/
def matchScoreAt (cs : List Char) : Option (List Char) :=
  match strLit ['"', 's', 'c', 'o', 'r', 'e', '"'] cs with
  | none => none
  | some r1 =>
    match r1.dropWhile isPyWs with
    | ':' :: r3 =>
      let d := (r3.dropWhile isPyWs).takeWhile (fun c => c.isDigit ∨ c = '.')
      if d = [] then none else some d
    | _ => none

/-- Leftmost match of the score regex over the whole text. -/
def searchScore : List Char → Option (List Char)
  | [] => none
  | c :: cs =>
    match matchScoreAt (c :: cs) with
    | some d => some d
    | none => searchScore cs

/-- Try to match `re.search(r'"passed"\s*:\s*(true|false)', content,
re.IGNORECASE)` at the head of `cs`; returns whether the captured group
lower-cases to `"true"`. -/
def matchPassedAt (cs : List Char) : Option Bool :=
  match cs with
  | '"' :: r =>
    if (r.take 6).map lowerChar = ['p', 'a', 's', 's', 'e', 'd'] then
      match r.drop 6 with
      | '"' :: r2 =>
        match r2.dropWhile isPyWs with
        | ':' :: r4 =>
          let r5 := r4.dropWhile isPyWs
          if (r5.take 4).map lowerChar = ['t', 'r', 'u', 'e'] then some true
          else if (r5.take 5).map lowerChar = ['f', 'a', 'l', 's', 'e'] then some false
          else none
        | _ => none
      | _ => none
    else none
  | _ => none

/-- Leftmost match of the passed regex over the whole text. -/
def searchPassed : List Char → Option Bool
  | [] => none
  | c :: cs =>
    match matchPassedAt (c :: cs) with
    | some b => some b
    | none => searchPassed cs

/-- The three fields of the JSON object `_call_llm` / `_run` return
(`json.dumps({"passed": ..., "score": ..., "rationale": ...})`; the dumped
string always round-trips through the flow's `json.loads`, so the
component boundary is modelled by the structured triple). -/
structure EvalOut where
  passed : JValue
  score : ℚ
  rationale : JValue
deriving Repr

/-- The regex fallback of `_call_llm` (lines 200-220): extract a score and
a passed flag directly from the raw `content`; with no score match, return
the final fallback `passed=False, score=0.5`.  A `ValueError` from
`float(...)` on the captured digits escapes `_call_llm` (error). -/
def regexFallbackEval (content : String) (threshold : ℚ) : Except Unit EvalOut :=
  match searchScore content.data with
  | some d =>
    match parsePyFloat (String.mk d) with
    | some score =>
      let passed :=
        match searchPassed content.data with
        | some b => b
        | none => decide (score ≥ threshold)
      .ok ⟨.bool passed, score,
        .str ("Extracted from partial response: " ++ pyTake content 100)⟩
    | none => .error ()
  | none =>
    .ok ⟨.bool false, 1/2, .str ("Could not parse evaluation: " ++ pyTake content 200)⟩

/-- Model of the handling `_call_llm` applies to the judge `content` (lines 156-220): fence
extraction, truncation repair, `json.loads`; on success, `float(score)`,
`passed` (defaulting to `score >= threshold`) and `rationale` defaults;
`json.JSONDecodeError`/`ValueError` fall to the regex fallback, while
`TypeError`/`AttributeError` escape (error). -/
def evalCallLlmParse (content : String) (threshold : ℚ) : Except Unit EvalOut :=
  match pythonJsonLoads (evalJsonStr content) with
  | some (.obj fields) =>
    match pyFloat ((jGet fields "score").getD (.num 0)) with
    | .ok score =>
      let passed := (jGet fields "passed").getD (.bool (decide (score ≥ threshold)))
      let rationale := (jGet fields "rationale").getD (.str "No rationale provided")
      .ok ⟨passed, score, rationale⟩
    | .valueErr => regexFallbackEval content threshold
    | .typeErr => .error ()
  | some _ => .error ()
  | none => regexFallbackEval content threshold

/-- Model of `EvaluatorTool._run` (lines 35-63): on any exception from the call or
from `_call_llm`'s uncaught internal errors, return the
`passed=False, score=0.0` error result (the exception message is
abstracted); otherwise return `_call_llm`'s result.  `none` as the call
outcome models the HTTP/LLM call itself raising. -/
def evaluatorRun (callOutcome : Option String) (threshold : ℚ) : EvalOut :=
  match callOutcome with
  | none => ⟨.bool false, 0, .str "Evaluation error"⟩
  | some content =>
    match evalCallLlmParse content threshold with
    | .ok out => out
    | .error _ => ⟨.bool false, 0, .str "Evaluation error"⟩

/-!
## Flow state and execution loop
`TestSuiteState` from models.py (the fields the verified phases touch;
credential/RAG-backend echo fields are outside the model) and the
`execute_tests` / `execute_csv_tests` loop body of flow.py
(lines 480-563; the two loops are textually identical).
`recommendations` is annotated `list[str]` in the source, but pydantic
does not validate assignments, so the stored value is whatever
`_run_evaluation` assigns; it is therefore carried as a `JValue`.
-/

/-- pydantic's lax bool coercion (validation of `TestResult.passed`):
bools, 0/1 numbers, and the recognized truthy/falsy strings; anything
else raises `ValidationError`. -/
def pydanticBool : JValue → Option Bool
  | .bool b => some b
  | .num q => if q = 1 then some true else if q = 0 then some false else none
  | .str s =>
    let t := pyLower s
    if t = "true" ∨ t = "t" ∨ t = "y" ∨ t = "yes" ∨ t = "on" ∨ t = "1" then some true
    else if t = "false" ∨ t = "f" ∨ t = "n" ∨ t = "no" ∨ t = "off" ∨ t = "0" then some false
    else none
  | _ => none

/-- Construction of one `TestResult` in the loop body (flow.py lines
508-515): field extraction from the parsed evaluator output plus
pydantic validation (`passed` coercion, `similarity_score` in `[0,1]`,
`evaluation_rationale` a string).  `none` models an uncaught
`ValidationError`. -/
def flowTestResult (test : TestCase) (actual : String) (out : EvalOut)
    (tms : ℕ) : Option TestResult :=
  match pydanticBool out.passed, out.rationale with
  | some b, .str rat =>
    if 0 ≤ out.score ∧ out.score ≤ 1 then
      some { test_case := test, actual_answer := actual, passed := b
             similarity_score := out.score, evaluation_rationale := rat
             execution_time_ms := tms }
    else none
  | _, _ => none

/-- The `execute_tests` loop (flow.py lines 487-517): for each test case
in order, call the target runner, call the evaluator, parse, append one
`TestResult`.  `runner` is `crew_runner._run`, `judge` is the evaluator's
LLM call outcome (`none` = the call raised), `execTime` the measured
elapsed milliseconds.  Returns the appended results and whether the loop
ran to completion (an uncaught `ValidationError` aborts it). -/
def executeTests (runner : String → String)
    (judge : String → String → String → Option String)
    (threshold : ℚ) (execTime : TestCase → ℕ) :
    List TestCase → List TestResult × Bool
  | [] => ([], true)
  | t :: ts =>
    let actual := runner t.question
    let out := evaluatorRun (judge t.expected_answer actual t.question) threshold
    match flowTestResult t actual out (execTime t) with
    | some r =>
      let rest := executeTests runner judge threshold execTime ts
      (r :: rest.1, rest.2)
    | none => ([], false)

/-- The state fields of `TestSuiteState` (models.py lines 173-217) that
the verified phases read or write, with the source defaults. -/
structure TestSuiteState where
  run_mode : String := "full"
  test_csv_path : String := ""
  target_mode : String := "api"
  target_api_url : String := ""
  target_crew_path : String := ""
  num_tests : ℕ := 20
  crew_description : String := ""
  test_cases : List TestCase := []
  current_test_index : ℕ := 0
  results : List TestResult := []
  pass_rate : ℚ := 0
  category_scores : List CategoryScore := []
  recommendations : JValue := .arr []
  quality_report : String := ""
deriving Repr

/-!
## `kickoff` input mapping and `run_flow`
flow.py lines 64-192 (`kickoff`) and 653-743 (`run_flow`).  Only the
state assignments to the modelled fields are embedded; the credential
exports and RAG-tool reconstruction (lines 105-161) configure objects
outside this model.
-/

/-- Python `a or b` over `dict.get` results (`None` and `""` are falsy). -/
def pyOr (a b : Option String) : Option String :=
  match a with
  | some s => if s = "" then b else some s
  | none => b

/-- Model of `inputs.get(k)` on the kickoff inputs dict. -/
def dictGet (d : List (String × String)) (k : String) : Option String :=
  (d.find? (fun p => p.1 = k)).map (fun p => p.2)

/-- The five recognized run-mode strings (flow.py line 87). -/
def validModes : List String :=
  ["full", "prompt_only", "generate_only", "execute_only", "generate_and_execute"]

/-- The state mutation performed by `kickoff(inputs)` (flow.py lines
80-175) on the modelled fields: when `inputs` is truthy (non-empty dict),
recompute `run_mode` from `RUN_MODE`/`run_mode` keys with default
`"full"` (coercing unrecognized modes to `"full"`), and reset
`test_csv_path`, `target_mode`, `target_api_url`, `target_crew_path` and
`crew_description` from their keys with their defaults. -/
def kickoffUpdate (inputs : List (String × String)) (st : TestSuiteState) : TestSuiteState :=
  if inputs = [] then st
  else
    let run_mode_input :=
      pyLower ((pyOr (dictGet inputs "RUN_MODE") (pyOr (dictGet inputs "run_mode") (some "full"))).getD "full")
    let run_mode_input := if run_mode_input ∈ validModes then run_mode_input else "full"
    { st with
      run_mode := run_mode_input
      test_csv_path :=
        (pyOr (dictGet inputs "TEST_CSV_PATH") (pyOr (dictGet inputs "test_csv_path") (some ""))).getD ""
      target_mode :=
        (pyOr (dictGet inputs "TARGET_MODE") (pyOr (dictGet inputs "target_mode") (some "api"))).getD "api"
      target_api_url :=
        (pyOr (dictGet inputs "TARGET_API_URL") (pyOr (dictGet inputs "target_api_url") (some ""))).getD ""
      target_crew_path :=
        (pyOr (dictGet inputs "TARGET_CREW_PATH") (pyOr (dictGet inputs "target_crew_path") (some ""))).getD ""
      crew_description :=
        (pyOr (dictGet inputs "CREW_DESCRIPTION") (pyOr (dictGet inputs "crew_description") (some ""))).getD "" }

/-- The state `run_flow` (flow.py lines 699-741) hands to the flow's
phases: first the direct state assignments from its arguments, then
`kickoff` applied to the inputs dict `run_flow` builds — which contains
only the seven RAG keys. -/
def runFlowState (run_mode test_csv_path target_api_url target_crew_path
    crew_description : String) (num_tests : ℕ)
    (rag_backend rag_mcp_url rag_mcp_token rag_corpus rag_qdrant_url
      rag_qdrant_api_key rag_qdrant_collection : String) : TestSuiteState :=
  let st : TestSuiteState :=
    { run_mode := run_mode
      test_csv_path := test_csv_path
      target_api_url := target_api_url
      target_crew_path := target_crew_path
      target_mode := if target_api_url ≠ "" then "api" else "local"
      num_tests := num_tests
      crew_description := crew_description }
  let inputs : List (String × String) :=
    [("RAG_BACKEND", rag_backend), ("RAG_MCP_URL", rag_mcp_url),
     ("RAG_MCP_TOKEN", rag_mcp_token), ("RAG_CORPUS", rag_corpus),
     ("RAG_QDRANT_URL", rag_qdrant_url), ("RAG_QDRANT_API_KEY", rag_qdrant_api_key),
     ("RAG_QDRANT_COLLECTION", rag_qdrant_collection)]
  kickoffUpdate inputs st

/-!
## CSV loading, evaluation and reporting pipeline
flow.py: `load_tests_from_csv` (lines 235-281), `execute_csv_tests`
(lines 522-563), `evaluate_csv_results` (lines 574-578), `_run_evaluation`
(lines 580-610), `generate_csv_report` (lines 617-621), `_generate_report`
(lines 623-650).  The CSV file content is a parameter (`none` models
`FileNotFoundError`/read errors); the analysis and reporting LLM
collaborators are function parameters; an event list records which
collaborators were invoked.
-/

/-- Model of `row.get(k, dflt)` on a `csv.DictReader` row. -/
def dictGetD (row : List (String × String)) (k dflt : String) : String :=
  (dictGet row k).getD dflt

/-- Python `f"CSV-{n:03d}"`. -/
def csvDefaultId (n : ℕ) : String :=
  "CSV-" ++ (if n < 10 then "00" else if n < 100 then "0" else "") ++ toString n

/-- One CSV row to a `TestCase` (flow.py lines 250-272): category and
difficulty parsed with fallback to `factual`/`medium` on `ValueError`;
`numLoaded` is `len(test_cases)` when the row is processed. -/
def csvRowToTestCase (row : List (String × String)) (numLoaded : ℕ) : TestCase :=
  let category := (TestCategory.ofString (pyLower (dictGetD row "category" "factual"))).getD .factual
  let difficulty := (TestDifficulty.ofString (pyLower (dictGetD row "difficulty" "medium"))).getD .medium
  { id := dictGetD row "id" (csvDefaultId (numLoaded + 1))
    question := dictGetD row "question" ""
    expected_answer := dictGetD row "expected_answer" ""
    category := category
    difficulty := difficulty
    rationale := dictGetD row "rationale" "Loaded from CSV" }

/-- Model of `load_tests_from_csv` (flow.py lines 235-281): empty path or a read
error leave the state untouched; otherwise every row is mapped to a
`TestCase`. -/
def load_tests_from_csv (csvFile : Option (List (List (String × String))))
    (st : TestSuiteState) : TestSuiteState :=
  if st.test_csv_path = "" then st
  else
    match csvFile with
    | none => st
    | some rows =>
      { st with test_cases := rows.enum.map (fun p => csvRowToTestCase p.2 p.1) }

/-- External collaborator invocations recorded by the pipeline. -/
inductive ExtCall where
  | analysisCall
  | reportingCall
deriving DecidableEq, Repr

/-- Model of `execute_csv_tests` (flow.py lines 522-563): runs the execution loop
only when `run_mode` is `execute_only` and `test_cases` is non-empty
(Python truthiness); results are appended, `current_test_index` tracks
the last started iteration. -/
def execute_csv_tests (runner : String → String)
    (judge : String → String → String → Option String)
    (threshold : ℚ) (execTime : TestCase → ℕ)
    (st : TestSuiteState) : TestSuiteState × Bool :=
  if pyLower st.run_mode = "execute_only" ∧ st.test_cases ≠ [] then
    let res := executeTests runner judge threshold execTime st.test_cases
    let started := res.1.length + (if res.2 then 0 else 1)
    ({ st with
        results := st.results ++ res.1
        current_test_index := if started = 0 then st.current_test_index else started - 1 },
     res.2)
  else (st, true)

/-- Model of the extraction `_run_evaluation` performs on `recommendations` from the analysis
payload (flow.py lines 602-607): a dict yields its `priority_order` value
(default `[]`), a list is stored as is, anything else leaves the state
field unchanged. -/
def extractRecommendations (analysis : List (String × JValue)) (prev : JValue) : JValue :=
  let recommendations := (jGet analysis "recommendations").getD (.obj [])
  match recommendations with
  | .obj f => (jGet f "priority_order").getD (.arr [])
  | .arr l => .arr l
  | _ => prev

/-- Model of `_run_evaluation` (flow.py lines 580-610): recompute `pass_rate` and
`category_scores` from the results, invoke the analysis collaborator, and
extract recommendations. -/
def runEvaluationStep (analysisFn : List TestResult → List (String × JValue))
    (st : TestSuiteState) : TestSuiteState :=
  let passed := (st.results.filter (fun r => r.passed)).length
  let total := st.results.length
  { st with
      pass_rate := if total > 0 then (passed : ℚ) / total * 100 else 0
      category_scores := calculate_category_scores st.results
      recommendations := extractRecommendations (analysisFn st.results) st.recommendations }

/-- Model of `evaluate_csv_results` (flow.py lines 574-578): run `_run_evaluation`
only when `results` is non-empty. -/
def evaluate_csv_results (analysisFn : List TestResult → List (String × JValue))
    (st : TestSuiteState) : TestSuiteState × List ExtCall :=
  if st.results ≠ [] then (runEvaluationStep analysisFn st, [.analysisCall]) else (st, [])

/-- The target name of `_generate_report` (flow.py line 632):
`target_api_url or target_crew_path or "Unknown"`. -/
def targetName (st : TestSuiteState) : String :=
  if st.target_api_url ≠ "" then st.target_api_url
  else if st.target_crew_path ≠ "" then st.target_crew_path
  else "Unknown"

/-- Model of `_generate_report` (flow.py lines 623-650): store the report
collaborator's output in `quality_report`. -/
def generateReportStep
    (reportFn : List TestResult → List CategoryScore → List (String × JValue) → String → String)
    (analysis : List (String × JValue)) (st : TestSuiteState) : TestSuiteState :=
  { st with quality_report := reportFn st.results st.category_scores analysis (targetName st) }

/-- Model of `generate_csv_report` (flow.py lines 617-621): run `_generate_report`
only when `results` is non-empty. -/
def generate_csv_report
    (reportFn : List TestResult → List CategoryScore → List (String × JValue) → String → String)
    (analysis : List (String × JValue)) (st : TestSuiteState) :
    TestSuiteState × List ExtCall :=
  if st.results ≠ [] then (generateReportStep reportFn analysis st, [.reportingCall]) else (st, [])

/-- The `execute_only` branch of the flow after routing:
LOAD_CSV → EXECUTE → EVALUATE → REPORT, with the invoked collaborators
recorded.  `_analysis` (set by `_run_evaluation`, read back by
`_generate_report` via `getattr(self, "_analysis", {})`) is `{}` when the
evaluation step was skipped. -/
def executeOnlyPipeline (csvFile : Option (List (List (String × String))))
    (runner : String → String)
    (judge : String → String → String → Option String)
    (threshold : ℚ) (execTime : TestCase → ℕ)
    (analysisFn : List TestResult → List (String × JValue))
    (reportFn : List TestResult → List CategoryScore → List (String × JValue) → String → String)
    (st0 : TestSuiteState) : TestSuiteState × List ExtCall :=
  let st1 := load_tests_from_csv csvFile st0
  let p2 := execute_csv_tests runner judge threshold execTime st1
  let p3 := evaluate_csv_results analysisFn p2.1
  let analysisVal := if p2.1.results ≠ [] then analysisFn p2.1.results else []
  let p4 := generate_csv_report reportFn analysisVal p3.1
  (p4.1, p3.2 ++ p4.2)

/-!
## Test-generation item parsing
`_parse_single_test_case` in crews/test_generation/crew.py
(lines 136-162): enum fallback per item; any other exception during
construction (non-string `category`/`difficulty` hit by `.lower()`, a
non-string field rejected by pydantic) makes the item return `None` and
be dropped.
-/

/-- Model of `_parse_single_test_case`: parse one generated test-case dict. -/
def parseSingleTestCase (item : List (String × JValue)) : Option TestCase :=
  match (jGet item "category").getD (.str "factual") with
  | .str cs =>
    let category := (TestCategory.ofString (pyLower cs)).getD .factual
    match (jGet item "difficulty").getD (.str "medium") with
    | .str ds =>
      let difficulty := (TestDifficulty.ofString (pyLower ds)).getD .medium
      match (jGet item "id").getD (.str ("TEST-" ++ toString item.length)),
            (jGet item "question").getD (.str ""),
            (jGet item "expected_answer").getD (.str ""),
            (jGet item "rationale").getD (.str "") with
      | .str id, .str q, .str ea, .str rat =>
        some { id := id, question := q, expected_answer := ea
               category := category, difficulty := difficulty, rationale := rat }
      | _, _, _, _ => none
    | _ => none
  | _ => none

/-!
## Claim theorems over the flow embedding
-/

/-- A concrete test case for witnesses and counterexamples. -/
def sampleCase : TestCase :=
  { id := "CSV-001", question := "What is X?", expected_answer := "X is Y"
    category := .factual, difficulty := .medium, rationale := "basic" }

/-- C3 (bug evaluation). `run_flow` sets `state.run_mode` from its
argument, but then calls `kickoff` with an inputs dict that contains only
the seven RAG keys; since the dict is non-empty and has no
`RUN_MODE`/`run_mode` key, `kickoff` overwrites `run_mode` with `"full"`
(and `test_csv_path` with `""`) for every argument value, so the mode
supplied to `run_flow` never survives to the phases. -/
theorem runFlow_clobbers_run_mode (mode csv url path desc : String) (n : ℕ)
    (b u t c qu qa qc : String) :
    (runFlowState mode csv url path desc n b u t c qu qa qc).run_mode = "full" ∧
    (runFlowState mode csv url path desc n b u t c qu qa qc).test_csv_path = "" :=
  ⟨rfl, rfl⟩

/-- The initial state of an `execute_only` run pointed at a CSV path. -/
def c4Init : TestSuiteState :=
  { run_mode := "execute_only", test_csv_path := "missing.csv" }

/-- C4 (counterexample). With a missing CSV file in `execute_only` mode,
the final quality report is the empty string and neither the analysis nor
the reporting collaborator is ever invoked — refuting that "the EVALUATE
step still runs" and that "REPORT still produces a non-empty report
string". -/
theorem csvLoadFailure_counterexample :
    (executeOnlyPipeline none (fun _ => "answer") (fun _ _ _ => some "\x7b\x7d") (7/10)
        (fun _ => 0) (fun _ => []) (fun _ _ _ _ => "A REPORT") c4Init).1.quality_report = "" ∧
    (executeOnlyPipeline none (fun _ => "answer") (fun _ _ _ => some "\x7b\x7d") (7/10)
        (fun _ => 0) (fun _ => []) (fun _ _ _ _ => "A REPORT") c4Init).2 = [] :=
  ⟨rfl, rfl⟩

/-- C4 (amended). With a missing CSV file in `execute_only` mode,
`test_cases` ends up empty and the execution loop performs zero
iterations; because `results` is empty, the EVALUATE and REPORT steps are
both skipped (no analysis or reporting call is made), `pass_rate` merely
retains its default 0, and `quality_report` remains the empty string. -/
theorem csvLoadFailure_skips_evaluate_report (runner : String → String)
    (judge : String → String → String → Option String) (threshold : ℚ)
    (execTime : TestCase → ℕ)
    (analysisFn : List TestResult → List (String × JValue))
    (reportFn : List TestResult → List CategoryScore → List (String × JValue) → String → String) :
    (executeOnlyPipeline none runner judge threshold execTime analysisFn reportFn c4Init).1.test_cases = [] ∧
    (executeOnlyPipeline none runner judge threshold execTime analysisFn reportFn c4Init).1.results = [] ∧
    (executeOnlyPipeline none runner judge threshold execTime analysisFn reportFn c4Init).1.pass_rate = 0 ∧
    (executeOnlyPipeline none runner judge threshold execTime analysisFn reportFn c4Init).1.quality_report = "" ∧
    (executeOnlyPipeline none runner judge threshold execTime analysisFn reportFn c4Init).2 = [] :=
  ⟨rfl, rfl, rfl, rfl, rfl⟩

unseal Rat.mul Rat.inv Rat.add Rat.sub in
/-- C5 (counterexample). For judge content `"garbage"` — which fails
`json.loads` even after fence extraction and repair, and from which the
regex can extract no score — the recorded `TestResult` has
`passed = false` but `similarity_score = 0.5`, not `0.0`: the evaluator's
final fallback (evaluator.py lines 213-220) uses `score: 0.5`. -/
theorem judgeParseFailure_counterexample :
    pythonJsonLoads (evalJsonStr "garbage") = none ∧
    searchScore "garbage".data = none ∧
    (executeTests (fun _ => "answer") (fun _ _ _ => some "garbage") (7/10) (fun _ => 5)
        [sampleCase]).1 =
      [{ test_case := sampleCase, actual_answer := "answer", passed := false
         similarity_score := 1/2
         evaluation_rationale := "Could not parse evaluation: garbage"
         execution_time_ms := 5 }] ∧
    (1 : ℚ)/2 ≠ 0 :=
  ⟨rfl, rfl, by decide, by norm_num⟩

/-- C5 (amended). When the judge's textual output cannot be parsed as
JSON after repair and no score can be regex-extracted, the evaluator
returns the default `passed = false` with `score = 0.5`; when the judge
call itself raises, it returns `passed = false, score = 0.0`.  In both
cases an explicit default is returned — no exception crosses the
evaluator boundary — and the loop continues. -/
theorem judgeFallback_defaults (content : String) (threshold : ℚ)
    (h1 : pythonJsonLoads (evalJsonStr content) = none)
    (h2 : searchScore content.data = none) :
    evaluatorRun (some content) threshold =
      ⟨.bool false, 1/2, .str ("Could not parse evaluation: " ++ pyTake content 200)⟩ ∧
    evaluatorRun none threshold = ⟨.bool false, 0, .str "Evaluation error"⟩ := by
  constructor
  · rw [evaluatorRun, evalCallLlmParse, h1, regexFallbackEval, h2]
  · rfl

/-- Witness for the amended C5 at the concrete content `"garbage"`. -/
theorem judgeFallback_defaults_witness :
    evaluatorRun (some "garbage") (7/10) =
      ⟨.bool false, 1/2, .str ("Could not parse evaluation: " ++ pyTake "garbage" 200)⟩ ∧
    evaluatorRun none (7/10) = ⟨.bool false, 0, .str "Evaluation error"⟩ :=
  judgeFallback_defaults "garbage" (7/10) rfl rfl

/-- The exact truncated judge output named by the spec's truncation-repair
property. -/
def c6Content : String :=
  "\x7b\"passed\": true, \"score\": 0.75, \"rationale\": \"Good but incomp"

/-- The `passed` field as a plain bool when it is one. -/
def EvalOut.passedBool (o : EvalOut) : Option Bool :=
  match o.passed with
  | .bool b => some b
  | _ => none

/-- The `rationale` field as a plain string when it is one. -/
def EvalOut.rationaleStr (o : EvalOut) : Option String :=
  match o.rationale with
  | .str s => some s
  | _ => none

/-- The successful value of an `Except`. -/
def exceptOk : Except Unit EvalOut → Option EvalOut
  | .ok o => some o
  | .error _ => none

unseal Rat.mul Rat.inv Rat.add Rat.sub in
/-- C6 (bug evaluation). On the spec's truncated input the repair
heuristic appends the missing `}` but never the closing quote — the
quote-closing step (evaluator.py lines 185-188) is guarded by
"does not end with `}`", which the brace repair has just made false — so
the repaired string still fails `json.loads`.  The evaluator only
recovers through the separate regex fallback, which returns
`passed = true, score = 0.75` with an "Extracted from partial response"
rationale instead of a repaired object. -/
theorem truncationRepair_fails_on_spec_input :
    evalJsonStr c6Content = c6Content ++ "\x7d" ∧
    (pythonJsonLoads (evalJsonStr c6Content)).isNone = true ∧
    (exceptOk (evalCallLlmParse c6Content (7/10))).map
        (fun o => (o.passedBool, o.score, o.rationaleStr)) =
      some (some true, 3/4,
        some ("Extracted from partial response: " ++ pyTake c6Content 100)) := by
  refine ⟨by decide, by decide, by decide⟩

/-- A successfully constructed `TestResult` embeds the test case it was
built from. -/
theorem flowTestResult_embeds (test : TestCase) (actual : String) (out : EvalOut)
    (tms : ℕ) (r : TestResult) (h : flowTestResult test actual out tms = some r) :
    r.test_case = test := by
  rw [flowTestResult] at h
  split at h
  · split at h
    · obtain rfl := Option.some.inj h
      rfl
    · exact Option.noConfusion h
  · exact Option.noConfusion h

theorem executeTests_append_extendsResults (runner : String → String)
    (judge : String → String → String → Option String) (threshold : ℚ)
    (execTime : TestCase → ℕ) :
    ∀ ts₁ ts₂ : List TestCase,
      (executeTests runner judge threshold execTime ts₁).1 <+:
        (executeTests runner judge threshold execTime (ts₁ ++ ts₂)).1 := by
  intro ts₁ ts₂
  induction ts₁ with
  | nil => exact List.nil_prefix
  | cons t ts ih =>
    show (executeTests runner judge threshold execTime (t :: ts)).1 <+:
      (executeTests runner judge threshold execTime (t :: (ts ++ ts₂))).1
    rw [executeTests, executeTests]
    cases hstep : flowTestResult t (runner t.question)
        (evaluatorRun (judge t.expected_answer (runner t.question) t.question) threshold)
        (execTime t) with
    | none => exact List.nil_prefix
    | some r =>
      obtain ⟨u, hu⟩ := ih
      exact ⟨u, by simpa using congrArg (r :: ·) hu⟩

/-- C8. The execution loop appends exactly one `TestResult` per executed
test case, in iteration order, each embedding the test case it came from:
the result list never exceeds the test-case list in length (with equality
when the loop completes), the i-th result embeds the i-th test case, and
the result list grows append-only (the results after any prefix of the
iterations are a prefix of the final results — nothing is mutated or
removed). -/
theorem executeTests_spec (runner : String → String)
    (judge : String → String → String → Option String) (threshold : ℚ)
    (execTime : TestCase → ℕ) (tests : List TestCase) :
    (executeTests runner judge threshold execTime tests).1.length ≤ tests.length ∧
    ((executeTests runner judge threshold execTime tests).2 = true →
      (executeTests runner judge threshold execTime tests).1.length = tests.length) ∧
    (∀ i (hi : i < (executeTests runner judge threshold execTime tests).1.length)
        (hj : i < tests.length),
      ((executeTests runner judge threshold execTime tests).1.get ⟨i, hi⟩).test_case =
        tests.get ⟨i, hj⟩) ∧
    (∀ n : ℕ, (executeTests runner judge threshold execTime (tests.take n)).1 <+:
        (executeTests runner judge threshold execTime tests).1) := by
  refine ⟨?_, ?_, ?_, fun n => ?_⟩
  · induction tests with
    | nil => simp [executeTests]
    | cons t ts ih =>
      rw [executeTests]
      cases flowTestResult t (runner t.question)
          (evaluatorRun (judge t.expected_answer (runner t.question) t.question) threshold)
          (execTime t) with
      | none => simp
      | some r => simpa using ih
  · induction tests with
    | nil => simp [executeTests]
    | cons t ts ih =>
      rw [executeTests]
      cases flowTestResult t (runner t.question)
          (evaluatorRun (judge t.expected_answer (runner t.question) t.question) threshold)
          (execTime t) with
      | none => simp
      | some r =>
        intro hdone
        simpa using ih hdone
  · induction tests with
    | nil => simp [executeTests]
    | cons t ts ih =>
      rw [executeTests]
      cases hstep : flowTestResult t (runner t.question)
          (evaluatorRun (judge t.expected_answer (runner t.question) t.question) threshold)
          (execTime t) with
      | none => intro i hi; simp at hi
      | some r =>
        intro i hi hj
        cases i with
        | zero =>
          show r.test_case = t
          exact flowTestResult_embeds _ _ _ _ r hstep
        | succ k =>
          exact ih k (Nat.lt_of_succ_lt_succ hi) (Nat.lt_of_succ_lt_succ hj)
  · have := executeTests_append_extendsResults runner judge threshold execTime
      (tests.take n) (tests.drop n)
    rwa [List.take_append_drop] at this

unseal Rat.mul Rat.inv Rat.add Rat.sub in
/-- Witness for C8 at a one-element test list. -/
theorem executeTests_spec_witness :
    (executeTests (fun _ => "answer") (fun _ _ _ => some "\x7b\x7d") (7/10) (fun _ => 0)
        [sampleCase]).1.length = 1 ∧
    ((executeTests (fun _ => "answer") (fun _ _ _ => some "\x7b\x7d") (7/10) (fun _ => 0)
        [sampleCase]).1.get ⟨0, by decide⟩).test_case = sampleCase :=
  ⟨(executeTests_spec (fun _ => "answer") (fun _ _ _ => some "\x7b\x7d") (7/10) (fun _ => 0)
      [sampleCase]).2.1 (by decide),
   (executeTests_spec (fun _ => "answer") (fun _ _ _ => some "\x7b\x7d") (7/10) (fun _ => 0)
      [sampleCase]).2.2.1 0 (by decide) (by decide)⟩

/-- C9. An unrecognized `category` string in a CSV row yields
`TestCase.category = factual` and an unrecognized `difficulty` yields
`medium` (the row never fails); a generated test-case item with
`category`/`difficulty` `"bogus"` likewise falls back to
`factual`/`medium` in any item it successfully parses. -/
theorem enumFallback (row : List (String × String)) (n : ℕ)
    (hc : dictGet row "category" = some "bogus")
    (hd : dictGet row "difficulty" = some "bogus") :
    (csvRowToTestCase row n).category = .factual ∧
    (csvRowToTestCase row n).difficulty = .medium ∧
    (∀ item tc, jGet item "category" = some (.str "bogus") →
      parseSingleTestCase item = some tc → tc.category = .factual) ∧
    (∀ item tc, jGet item "difficulty" = some (.str "bogus") →
      parseSingleTestCase item = some tc → tc.difficulty = .medium) := by
  refine ⟨?_, ?_, ?_, ?_⟩
  · simp [csvRowToTestCase, dictGetD, hc]
    rfl
  · simp [csvRowToTestCase, dictGetD, hd]
    rfl
  · intro item tc h hres
    rw [parseSingleTestCase, h] at hres
    simp only [Option.getD_some] at hres
    split at hres
    · split at hres
      · obtain rfl := Option.some.inj hres
        show (TestCategory.ofString (pyLower "bogus")).getD TestCategory.factual =
          TestCategory.factual
        decide
      · exact Option.noConfusion hres
    · exact Option.noConfusion hres
  · intro item tc h hres
    rw [parseSingleTestCase] at hres
    split at hres
    · rw [h] at hres
      simp only [Option.getD_some] at hres
      split at hres
      · obtain rfl := Option.some.inj hres
        show (TestDifficulty.ofString (pyLower "bogus")).getD TestDifficulty.medium =
          TestDifficulty.medium
        decide
      · exact Option.noConfusion hres
    · exact Option.noConfusion hres

/-- Witness for C9 at a concrete bogus row and item. -/
theorem enumFallback_witness :
    (csvRowToTestCase [("category", "bogus"), ("difficulty", "bogus")] 0).category = .factual ∧
    (csvRowToTestCase [("category", "bogus"), ("difficulty", "bogus")] 0).difficulty = .medium ∧
    (⟨"TEST-1", "", "", .factual, .medium, ""⟩ : TestCase).category = .factual :=
  ⟨(enumFallback [("category", "bogus"), ("difficulty", "bogus")] 0 rfl rfl).1,
   (enumFallback [("category", "bogus"), ("difficulty", "bogus")] 0 rfl rfl).2.1,
   (enumFallback [("category", "bogus"), ("difficulty", "bogus")] 0 rfl rfl).2.2.1
     [("category", JValue.str "bogus")] ⟨"TEST-1", "", "", .factual, .medium, ""⟩ rfl rfl⟩

/-- C10. The recommendations stored by the EVALUATE step are determined
by the type of the analysis payload's `recommendations` field: a dict
yields its `priority_order` value (the empty list when absent), a list is
stored as is, and any other type leaves the previous value unchanged. -/
theorem recommendationsExtraction (analysis : List (String × JValue)) (prev : JValue) :
    (∀ f, jGet analysis "recommendations" = some (.obj f) →
      extractRecommendations analysis prev = (jGet f "priority_order").getD (.arr [])) ∧
    (∀ l, jGet analysis "recommendations" = some (.arr l) →
      extractRecommendations analysis prev = .arr l) ∧
    (∀ v, jGet analysis "recommendations" = some v →
      (∀ f, v ≠ .obj f) → (∀ l, v ≠ .arr l) →
      extractRecommendations analysis prev = prev) := by
  refine ⟨fun f h => ?_, fun l h => ?_, fun v h hobj harr => ?_⟩
  · rw [extractRecommendations, h]
    rfl
  · rw [extractRecommendations, h]
    rfl
  · rw [extractRecommendations, h]
    cases v with
    | obj f => exact absurd rfl (hobj f)
    | arr l => exact absurd rfl (harr l)
    | null => rfl
    | bool b => rfl
    | num q => rfl
    | str s => rfl

/-- Witness for C10 at a dict-valued and a string-valued
`recommendations` field. -/
theorem recommendationsExtraction_witness :
    extractRecommendations
      [("recommendations", JValue.obj [("priority_order", JValue.arr [JValue.str "fix X"])])]
      (JValue.arr []) =
      (jGet [("priority_order", JValue.arr [JValue.str "fix X"])] "priority_order").getD (JValue.arr []) ∧
    extractRecommendations [("recommendations", JValue.str "n/a")] JValue.null = JValue.null :=
  ⟨(recommendationsExtraction
      [("recommendations", JValue.obj [("priority_order", JValue.arr [JValue.str "fix X"])])]
      (JValue.arr [])).1 _ rfl,
   (recommendationsExtraction [("recommendations", JValue.str "n/a")] JValue.null).2.2
     (JValue.str "n/a") rfl (fun _ h => JValue.noConfusion h) (fun _ h => JValue.noConfusion h)⟩

end RagTestSuite
